import Mathlib

/-!
Verification of the fileman navigation-and-synchronization engine.

Shallow embedding of:
- `src/fileman/src/navigation.rs` (`NavigationState`)
- `src/fileman/src/toolbar.rs` (`ToolbarWrapper`: delete button guard and the
  selection-response processing in `update`)
- `src/fileman/src/window.rs` (`FileListWrapper::update`: delete execution
  loop, vanished-directory recovery, confirmation dialog pipeline)
- `src/fileman/src/operations.rs` (treated as the external filesystem
  collaborator, abstracted as a function per operation)
-/

namespace Fileman

/-- Absolute filesystem paths are modelled as the list of their components
below the root: `PathBuf::from("/")` is `[]`, `/home/user` is
`["home", "user"]`.  `PathBuf::parent` of a non-root path drops the last
component; the root has no parent. -/
abbrev FsPath := List String

/-! ### NavigationState (`src/fileman/src/navigation.rs`) -/

/-- State of `NavigationState`: the history stack `path_history`, the cursor
`history_position`, and the current value of the reactive `current_path`
signal.  `signal_writes` is a history variable counting the calls to
`current_path.set_value`, used to state that an operation performs no
signal write. -/
structure NavigationState where
  path_history : List FsPath
  history_position : Nat
  current_path : FsPath
  signal_writes : Nat
deriving DecidableEq

namespace NavigationState

/-- `NavigationState::new` (navigation.rs:16-23). -/
def new (initial_path : FsPath) : NavigationState :=
  { path_history := [initial_path]
    history_position := 0
    current_path := initial_path
    signal_writes := 0 }

/-- `NavigationState::get_current_path` (navigation.rs:85-92): the entry at
`history_position` when in bounds, otherwise the fallback read of the
signal.  The same expression is computed inline by `navigate_to` and
`parent_path`. -/
def get_current_path (s : NavigationState) : FsPath :=
  if s.history_position < s.path_history.length then
    s.path_history.getD s.history_position []
  else
    s.current_path

/-- `NavigationState::navigate_to` (navigation.rs:31-48): when the requested
path differs from the current entry, truncate the stack after the cursor
(`Vec::truncate(position + 1)` keeps the first `position + 1` entries),
push the new path, move the cursor to the last index and write the signal;
otherwise do nothing. -/
def navigate_to (s : NavigationState) (path : FsPath) : NavigationState :=
  let current := get_current_path s
  if current ≠ path then
    let hist := s.path_history.take (s.history_position + 1) ++ [path]
    { path_history := hist
      history_position := hist.length - 1
      current_path := path
      signal_writes := s.signal_writes + 1 }
  else
    s

/-- `NavigationState::can_go_back` (navigation.rs:75-77). -/
def can_go_back (s : NavigationState) : Bool :=
  decide (0 < s.history_position)

/-- `NavigationState::can_go_forward` (navigation.rs:80-82).  The stack is
never empty in any reachable state, so the `usize` subtraction
`len() - 1` agrees with Nat subtraction. -/
def can_go_forward (s : NavigationState) : Bool :=
  decide (s.history_position < s.path_history.length - 1)

/-- `NavigationState::go_back` (navigation.rs:51-60).  The vector index
`path_history[history_position]` is modelled with `getD`; the guard keeps
it in bounds in every reachable state. -/
def go_back (s : NavigationState) : NavigationState × Option FsPath :=
  if s.can_go_back then
    let newPos := s.history_position - 1
    let path := s.path_history.getD newPos []
    ({ s with
        history_position := newPos
        current_path := path
        signal_writes := s.signal_writes + 1 }, some path)
  else
    (s, none)

/-- `NavigationState::go_forward` (navigation.rs:63-72). -/
def go_forward (s : NavigationState) : NavigationState × Option FsPath :=
  if s.can_go_forward then
    let newPos := s.history_position + 1
    let path := s.path_history.getD newPos []
    ({ s with
        history_position := newPos
        current_path := path
        signal_writes := s.signal_writes + 1 }, some path)
  else
    (s, none)

/-- `NavigationState::parent_path` (navigation.rs:95-102). -/
def parent_path (s : NavigationState) : Option FsPath :=
  let current := get_current_path s
  if current = [] then none else some current.dropLast

end NavigationState

/-- No two adjacent entries of the list are equal. -/
def noAdjDup : List FsPath → Bool
  | [] => true
  | [_] => true
  | a :: b :: rest => !(decide (a = b)) && noAdjDup (b :: rest)

/-- The data invariant of `NavigationState`: non-empty stack, no two adjacent
equal entries, cursor strictly within bounds. -/
def Inv (s : NavigationState) : Prop :=
  s.path_history ≠ [] ∧
  noAdjDup s.path_history = true ∧
  s.history_position < s.path_history.length

/-- One user-visible navigation operation. -/
inductive NavOp where
  | navigate (path : FsPath)
  | back
  | forward
deriving DecidableEq

/-- Apply one navigation operation (dropping the returned path). -/
def applyOp (s : NavigationState) : NavOp → NavigationState
  | .navigate p => s.navigate_to p
  | .back => (s.go_back).1
  | .forward => (s.go_forward).1

/-- Apply a sequence of navigation operations in order. -/
def applyOps (s : NavigationState) (ops : List NavOp) : NavigationState :=
  ops.foldl applyOp s

/-! Concrete navigation run used by the spec scenario: start at `/home/user`,
visit `docs` then `docs/a`, go back, then navigate to `pics`. -/

def navDemo0 : NavigationState := NavigationState.new ["home", "user"]
def navDemo1 : NavigationState := navDemo0.navigate_to ["home", "user", "docs"]
def navDemo2 : NavigationState := navDemo1.navigate_to ["home", "user", "docs", "a"]
def navDemo3 : NavigationState := (navDemo2.go_back).1
def navDemoBackResult : Option FsPath := (navDemo2.go_back).2
def navDemo4 : NavigationState := navDemo3.navigate_to ["home", "user", "pics"]

/-! ### Operation requests and the toolbar confirmation gate
(`src/fileman/src/window.rs`, `src/fileman/src/toolbar.rs`) -/

/-- `FileOperationRequest` (window.rs:17-23).  `Rename`'s source field is
called `from` in Rust, a Lean keyword, hence `src`/`dst`. -/
inductive FileOperationRequest where
  | Delete (paths : List FsPath)
  | CreateDirectory (parent : FsPath) (name : String)
  | Rename (src : FsPath) (dst : FsPath)
  | Properties (paths : List FsPath)
deriving DecidableEq

/-- The two request flags of `ToolbarWrapper` that guard how a message on the
selection-response channel is interpreted: `pending_properties_request`
and `pending_delete_request` (toolbar.rs:40,44). -/
structure ToolbarGate where
  pending_properties_request : Bool
  pending_delete_request : Bool
deriving DecidableEq

/-- Processing of one message received on `selected_paths_response_rx` in
`ToolbarWrapper::update` (toolbar.rs:314-366): an empty response is skipped
outright (`continue`, toolbar.rs:316-319, with no change to either flag);
otherwise the properties flag is tested first and, when set, cleared and a
`Properties` request emitted; otherwise the delete flag is tested and, when
set, cleared and a `Delete` request emitted; when neither flag is set the
message is dropped.  Returns the new flags and the emitted requests. -/
def processResponse (g : ToolbarGate) (paths : List FsPath) :
    ToolbarGate × List FileOperationRequest :=
  if paths.isEmpty then
    (g, [])
  else if g.pending_properties_request then
    ({ g with pending_properties_request := false },
      [FileOperationRequest.Properties paths])
  else if g.pending_delete_request then
    ({ g with pending_delete_request := false },
      [FileOperationRequest.Delete paths])
  else
    (g, [])

/-- Draining the whole selection-response queue in order (the
`while let Ok(paths) = rx.try_recv()` loop, toolbar.rs:315). -/
def processResponses (g : ToolbarGate) :
    List (List FsPath) → ToolbarGate × List FileOperationRequest
  | [] => (g, [])
  | r :: rs =>
    let p1 := processResponse g r
    let p2 := processResponses p1.1 rs
    (p2.1, p1.2 ++ p2.2)

/-- One evaluation of the delete button's `on_pressed` closure
(toolbar.rs:141-161): if `pending_delete_request` is clear, set it and send
one selection request; if it is already set, do nothing (reentrancy guard
against continuous re-evaluation).  The Bool is true iff a selection
request was sent. -/
def pressDelete (g : ToolbarGate) : ToolbarGate × Bool :=
  if g.pending_delete_request then
    (g, false)
  else
    ({ g with pending_delete_request := true }, true)

/-! ### Confirmed-delete execution loop (`src/fileman/src/window.rs:361-397`)

The external filesystem collaborator (`operations::delete_path`,
operations.rs:18-28) is abstracted as a function `del` from a path to
`Except String Unit`: `Except.ok ()` is a successful deletion, and
`Except.error e` carries the human-readable error string. -/

/-- Result of running the delete loop: the paths on which `delete_path` was
actually invoked (in order), and the error of the first failing deletion
if any. -/
structure DeleteLoopResult where
  attempted : List FsPath
  firstError : Option String
deriving DecidableEq

/-- The `for path in &paths` loop of window.rs:369-381: each path is delegated
to the collaborator; the first failure records the error and breaks out, so
later paths are not attempted. -/
def deleteLoop (del : FsPath → Except String Unit) :
    List FsPath → DeleteLoopResult
  | [] => { attempted := [], firstError := none }
  | p :: ps =>
    match del p with
    | Except.ok _ =>
      let r := deleteLoop del ps
      { attempted := p :: r.attempted, firstError := r.firstError }
    | Except.error e =>
      { attempted := [p], firstError := some e }

/-- Outcome of processing one confirmed `Delete(paths)` request. -/
structure DeletePipelineResult where
  attempted : List FsPath
  status : String
  refreshed : Bool
deriving DecidableEq

/-- Processing of a confirmed `Delete(paths)` request (window.rs:362-396):
run the delete loop, send a status message — the total count on success
(`"Deleted {n} item(s)"`, and every path was deleted so the count is the
number of successes), or `"Error: {e}"` for the first error — and always
re-apply the current path to the file list (the refresh,
window.rs:392-395), whether or not a failure occurred. -/
def runDelete (del : FsPath → Except String Unit) (paths : List FsPath) :
    DeletePipelineResult :=
  let r := deleteLoop del paths
  { attempted := r.attempted
    status :=
      match r.firstError with
      | none => "Deleted " ++ toString paths.length ++ " item(s)"
      | some e => "Error: " ++ e
    refreshed := true }

/-! ### Vanished-directory recovery (`src/fileman/src/window.rs:209-230`)

Whether a path currently exists on disk is abstracted as a predicate
`ex : FsPath → Bool`. -/

/-- The recovery `while` loop (window.rs:215-221), fuelled: while the walked
path does not exist and is not the root `/`, replace it by its parent.
Each iteration drops one component, so `p.length` steps of fuel always
suffice. -/
def recoveryWalkAux (ex : FsPath → Bool) : Nat → FsPath → FsPath
  | 0, p => p
  | fuel + 1, p =>
    if ex p then p
    else if p = [] then p
    else recoveryWalkAux ex fuel p.dropLast

/-- The recovery walk starting from a path, with enough fuel to reach the
root. -/
def recoveryWalk (ex : FsPath → Bool) (p : FsPath) : FsPath :=
  recoveryWalkAux ex p.length p

/-- The part of `FileListWrapper`'s state touched by the recovery logic: the
shared navigation state, the file list's own path signal
(`file_list_path_signal`), and the status messages sent so far (a history
variable recording sends on `status_tx`). -/
structure ViewState where
  nav : NavigationState
  viewPath : FsPath
  statusSent : List String
deriving DecidableEq

/-- The vanished-directory recovery step (window.rs:211-230): when the
displayed path no longer exists, walk up to the nearest existing ancestor;
if one is found (and differs from the displayed path), navigate there and
re-point the file list, without sending any status message. -/
def recoverVanished (ex : FsPath → Bool) (v : ViewState) : ViewState :=
  let current := v.viewPath
  if ex current then
    v
  else
    let r := recoveryWalk ex current
    if ex r && decide (r ≠ current) then
      { v with nav := v.nav.navigate_to r, viewPath := r }
    else
      v

/-! ### The toolbar-delete pipeline as a transition system

This composes the pieces relevant to claim C1: the toolbar gate
(toolbar.rs), the operation channel, the confirmation dialog and the
`pending_delete_confirmation` holder (window.rs:41,89-160,352-397).  The
fields `executedSets`, `respondedDelete` and `confirmedSets` are history
variables: they are only appended to, exactly where the corresponding real
transition occurs, and record respectively the operand sets actually handed
to the filesystem delete loop, the operand sets emitted as `Delete`
requests by the gate (necessarily non-empty responses consumed with
`pending_delete_request` set), and the operand sets confirmed through a
dialog's Delete button. -/

/-- The operand sets of the `Delete` requests in a list of requests. -/
def deleteRequestSets (reqs : List FileOperationRequest) : List (List FsPath) :=
  reqs.filterMap fun r =>
    match r with
    | FileOperationRequest.Delete ps => some ps
    | _ => none

/-- `show_delete_confirmation_dialog` (window.rs:89-160): an empty operand set
returns early without opening a dialog; otherwise a dialog holding the
operand set is opened. -/
def showDialog (dialogs : List (List FsPath)) (paths : List FsPath) :
    List (List FsPath) :=
  if paths.isEmpty then dialogs else dialogs ++ [paths]

/-- Global state of the toolbar-delete pipeline. -/
structure SysState where
  gate : ToolbarGate
  opQueue : List FileOperationRequest
  dialogs : List (List FsPath)
  pending_delete_confirmation : Option (List FsPath)
  executedSets : List (List FsPath)
  respondedDelete : List (List FsPath)
  confirmedSets : List (List FsPath)
deriving DecidableEq

/-- Events of the pipeline:
- `pressDelete`: one evaluation of the toolbar delete button (toolbar.rs:141-161);
- `response paths`: one message consumed from the selection-response channel
  (toolbar.rs:314-366), with emitted requests enqueued on the operation channel;
- `confirm paths`: a press of the Delete button of an open confirmation
  dialog for that operand set, which stores the set into
  `pending_delete_confirmation` (window.rs:117-128);
- `cancel paths`: a press of a dialog's Cancel button, whose `on_pressed` is
  the constant `Update::DRAW` and changes no state (window.rs:113-114);
- `drainOps`: the drain of the operation channel in `FileListWrapper::update`,
  turning each `Delete` request into an open dialog (window.rs:287-359) —
  the non-delete requests execute immediately and touch none of the
  delete-pipeline state;
- `pipelineTick`: the consumption of `pending_delete_confirmation`
  (window.rs:362-397), which runs the filesystem delete loop on the taken
  operand set. -/
inductive Ev where
  | pressDelete
  | response (paths : List FsPath)
  | confirm (paths : List FsPath)
  | cancel (paths : List FsPath)
  | drainOps
  | pipelineTick
deriving DecidableEq

/-- One transition of the toolbar-delete pipeline. -/
def step (s : SysState) : Ev → SysState
  | Ev.pressDelete =>
    { s with gate := (pressDelete s.gate).1 }
  | Ev.response paths =>
    let pr := processResponse s.gate paths
    { s with
        gate := pr.1
        opQueue := s.opQueue ++ pr.2
        respondedDelete := s.respondedDelete ++ deleteRequestSets pr.2 }
  | Ev.confirm paths =>
    if paths ∈ s.dialogs then
      { s with
          pending_delete_confirmation := some paths
          confirmedSets := s.confirmedSets ++ [paths] }
    else
      s
  | Ev.cancel _ => s
  | Ev.drainOps =>
    { s with
        opQueue := []
        dialogs := (deleteRequestSets s.opQueue).foldl showDialog s.dialogs }
  | Ev.pipelineTick =>
    match s.pending_delete_confirmation with
    | some paths =>
      { s with
          pending_delete_confirmation := none
          executedSets := s.executedSets ++ [paths] }
    | none => s

/-- The initial state: both flags clear, all queues empty. -/
def initState : SysState :=
  { gate := { pending_properties_request := false, pending_delete_request := false }
    opQueue := []
    dialogs := []
    pending_delete_confirmation := none
    executedSets := []
    respondedDelete := []
    confirmedSets := [] }

/-- Run the pipeline over a list of events. -/
def runSys (es : List Ev) : SysState :=
  es.foldl step initState

/-- The safety invariant of the pipeline relating the real state to the
history variables. -/
def SysInv (s : SysState) : Prop :=
  (∀ ps, FileOperationRequest.Delete ps ∈ s.opQueue → ps ∈ s.respondedDelete) ∧
  (∀ ps ∈ s.dialogs, ps ∈ s.respondedDelete) ∧
  (∀ ps, s.pending_delete_confirmation = some ps →
    ps ∈ s.confirmedSets ∧ ps ∈ s.respondedDelete) ∧
  (∀ ps ∈ s.executedSets, ps ∈ s.confirmedSets ∧ ps ∈ s.respondedDelete) ∧
  (∀ ps ∈ s.respondedDelete, ps ≠ []) ∧
  (∀ ps ∈ s.confirmedSets, ps ∈ s.respondedDelete)

/-! Concrete data used by the witnesses. -/

/-- A demonstration trace: press delete, receive the selection `[/tmp/a]`,
open the dialog, confirm, execute. -/
def demoTrace : List Ev :=
  [Ev.pressDelete, Ev.response [["tmp", "a"]], Ev.drainOps,
    Ev.confirm [["tmp", "a"]], Ev.pipelineTick]

/-- A demonstration filesystem collaborator: deleting `/tmp/a` fails with
`"Failed"`, everything else succeeds. -/
def demoDel : FsPath → Except String Unit := fun p =>
  if p = ["tmp", "a"] then Except.error "Failed" else Except.ok ()

/-- A demonstration existence predicate: only `/`, `/home` and `/home/user`
exist. -/
def demoEx : FsPath → Bool := fun p =>
  decide (p ∈ ([[], ["home"], ["home", "user"]] : List FsPath))

/-- A demonstration view state displaying the vanished directory
`/home/user/docs/a`. -/
def demoView : ViewState :=
  { nav := NavigationState.new ["home", "user", "docs", "a"]
    viewPath := ["home", "user", "docs", "a"]
    statusSent := [] }

/-! ## Theorems -/

/-! ### Navigation history lemmas -/

theorem noAdjDup_tail (a : FsPath) (l : List FsPath)
    (h : noAdjDup (a :: l) = true) : noAdjDup l = true := by
  cases l with
  | nil => rfl
  | cons b rest =>
    simp only [noAdjDup, Bool.and_eq_true] at h
    exact h.2

theorem noAdjDup_head_ne (a b : FsPath) (l : List FsPath)
    (h : noAdjDup (a :: b :: l) = true) : a ≠ b := by
  simp only [noAdjDup, Bool.and_eq_true, Bool.not_eq_true',
    decide_eq_false_iff_not] at h
  exact h.1

theorem noAdjDup_take_append (path : FsPath) :
    ∀ (l : List FsPath) (pos : Nat), noAdjDup l = true → pos < l.length →
      l.getD pos [] ≠ path → noAdjDup (l.take (pos + 1) ++ [path]) = true := by
  intro l
  induction l with
  | nil => intro pos _ hpos _; simp at hpos
  | cons a l' ih =>
    intro pos hnd hpos hne
    cases pos with
    | zero =>
      simp only [List.getD_cons_zero] at hne
      simp [noAdjDup, hne]
    | succ n =>
      cases l' with
      | nil => simp at hpos
      | cons b l'' =>
        simp only [List.getD_cons_succ] at hne
        simp only [List.length_cons] at hpos
        have hnd' : noAdjDup (b :: l'') = true := noAdjDup_tail _ _ hnd
        have hab : a ≠ b := noAdjDup_head_ne _ _ _ hnd
        have ihh := ih n hnd' (by simpa using hpos) hne
        simp only [List.take_succ_cons, List.cons_append] at ihh ⊢
        simp [noAdjDup, hab, ihh]

theorem navigate_to_of_ne (s : NavigationState) (path : FsPath)
    (hne : NavigationState.get_current_path s ≠ path) :
    s.navigate_to path =
      { path_history := s.path_history.take (s.history_position + 1) ++ [path]
        history_position :=
          (s.path_history.take (s.history_position + 1) ++ [path]).length - 1
        current_path := path
        signal_writes := s.signal_writes + 1 } := by
  unfold NavigationState.navigate_to
  simp [hne]

theorem navigate_to_of_eq (s : NavigationState) (path : FsPath)
    (heq : NavigationState.get_current_path s = path) :
    s.navigate_to path = s := by
  unfold NavigationState.navigate_to
  simp [heq]

theorem get_current_path_of_lt (s : NavigationState)
    (hpos : s.history_position < s.path_history.length) :
    NavigationState.get_current_path s
      = s.path_history.getD s.history_position [] := by
  unfold NavigationState.get_current_path
  simp [hpos]

theorem new_inv (p : FsPath) : Inv (NavigationState.new p) :=
  ⟨by simp [NavigationState.new], by simp [NavigationState.new, noAdjDup],
    by simp [NavigationState.new]⟩

theorem navigate_to_inv (s : NavigationState) (p : FsPath) (h : Inv s) :
    Inv (s.navigate_to p) := by
  obtain ⟨hne, hnd, hpos⟩ := h
  by_cases hc : NavigationState.get_current_path s = p
  · rw [navigate_to_of_eq s p hc]
    exact ⟨hne, hnd, hpos⟩
  · rw [navigate_to_of_ne s p hc]
    refine ⟨by simp, ?_, by simp⟩
    have hcur := get_current_path_of_lt s hpos
    exact noAdjDup_take_append p s.path_history s.history_position hnd hpos
      (hcur ▸ hc)

theorem go_back_inv (s : NavigationState) (h : Inv s) : Inv (s.go_back).1 := by
  obtain ⟨hne, hnd, hpos⟩ := h
  unfold NavigationState.go_back
  split
  · exact ⟨hne, hnd, by simp; omega⟩
  · exact ⟨hne, hnd, hpos⟩

theorem go_forward_inv (s : NavigationState) (h : Inv s) :
    Inv (s.go_forward).1 := by
  obtain ⟨hne, hnd, hpos⟩ := h
  unfold NavigationState.go_forward
  split
  next hfw =>
    simp only [NavigationState.can_go_forward, decide_eq_true_eq] at hfw
    exact ⟨hne, hnd, by simp; omega⟩
  next => exact ⟨hne, hnd, hpos⟩

theorem applyOp_inv (s : NavigationState) (op : NavOp) (h : Inv s) :
    Inv (applyOp s op) := by
  cases op with
  | navigate p => exact navigate_to_inv s p h
  | back => exact go_back_inv s h
  | forward => exact go_forward_inv s h

theorem applyOps_inv (ops : List NavOp) (s : NavigationState) (h : Inv s) :
    Inv (applyOps s ops) := by
  induction ops generalizing s with
  | nil => exact h
  | cons op ops ih => exact ih (applyOp s op) (applyOp_inv s op h)

/-! ### Claim theorems for the navigation history -/

/-- C3: for every sequence of `navigate_to`, `go_back` and `go_forward`
operations starting from a `NavigationState` created with an initial path,
the history stack is non-empty, contains no two adjacent equal entries, and
the position index satisfies `0 ≤ position < len(stack)`. -/
theorem navigation_history_invariant (p : FsPath) (ops : List NavOp) :
    (applyOps (NavigationState.new p) ops).path_history ≠ [] ∧
    noAdjDup (applyOps (NavigationState.new p) ops).path_history = true ∧
    (applyOps (NavigationState.new p) ops).history_position <
      (applyOps (NavigationState.new p) ops).path_history.length :=
  applyOps_inv ops (NavigationState.new p) (new_inv p)

/-- Witness for C3: the invariant evaluated on a concrete run. -/
theorem navigation_history_invariant_witness :
    (applyOps (NavigationState.new ["home", "user"])
        [NavOp.navigate ["home", "user", "docs"], NavOp.back,
          NavOp.forward]).path_history ≠ [] ∧
    noAdjDup (applyOps (NavigationState.new ["home", "user"])
        [NavOp.navigate ["home", "user", "docs"], NavOp.back,
          NavOp.forward]).path_history = true ∧
    (applyOps (NavigationState.new ["home", "user"])
        [NavOp.navigate ["home", "user", "docs"], NavOp.back,
          NavOp.forward]).history_position <
      (applyOps (NavigationState.new ["home", "user"])
        [NavOp.navigate ["home", "user", "docs"], NavOp.back,
          NavOp.forward]).path_history.length :=
  navigation_history_invariant ["home", "user"]
    [NavOp.navigate ["home", "user", "docs"], NavOp.back, NavOp.forward]

theorem go_back_of_can (s : NavigationState) (hb : s.can_go_back = true) :
    s.go_back =
      ({ s with
          history_position := s.history_position - 1
          current_path := s.path_history.getD (s.history_position - 1) []
          signal_writes := s.signal_writes + 1 },
        some (s.path_history.getD (s.history_position - 1) [])) := by
  unfold NavigationState.go_back
  simp [hb]

theorem go_forward_of_can (s : NavigationState)
    (hf : s.can_go_forward = true) :
    s.go_forward =
      ({ s with
          history_position := s.history_position + 1
          current_path := s.path_history.getD (s.history_position + 1) []
          signal_writes := s.signal_writes + 1 },
        some (s.path_history.getD (s.history_position + 1) [])) := by
  unfold NavigationState.go_forward
  simp [hf]

theorem go_back_of_not (s : NavigationState) (hb : s.can_go_back = false) :
    s.go_back = (s, none) := by
  unfold NavigationState.go_back
  simp [hb]

theorem go_forward_of_not (s : NavigationState)
    (hf : s.can_go_forward = false) :
    s.go_forward = (s, none) := by
  unfold NavigationState.go_forward
  simp [hf]

/-- C6: with `can_go_back() = position > 0` and
`can_go_forward() = position < len(stack) - 1`, a `go_back` immediately
followed by `go_forward` restores exactly the current path (indeed the
cursor and the whole stack) held before the `go_back`; and once bounds are
exhausted, `go_back` and `go_forward` return `none` without mutating the
stack, the position, or the path signal (the state, including the
signal-write counter, is unchanged). -/
theorem go_back_go_forward_spec (s : NavigationState) (hInv : Inv s) :
    (s.can_go_back = true →
      NavigationState.get_current_path ((s.go_back).1.go_forward).1
        = NavigationState.get_current_path s ∧
      ((s.go_back).1.go_forward).1.path_history = s.path_history ∧
      ((s.go_back).1.go_forward).1.history_position = s.history_position) ∧
    (s.can_go_back = false → s.go_back = (s, none)) ∧
    (s.can_go_forward = false → s.go_forward = (s, none)) ∧
    (s.can_go_back = true ↔ 0 < s.history_position) ∧
    (s.can_go_forward = true ↔
      s.history_position < s.path_history.length - 1) := by
  obtain ⟨hne, hnd, hpos⟩ := hInv
  refine ⟨?_, go_back_of_not s, go_forward_of_not s,
    by simp [NavigationState.can_go_back],
    by simp [NavigationState.can_go_forward]⟩
  intro hb
  have h0 : 0 < s.history_position := by
    simpa [NavigationState.can_go_back] using hb
  rw [go_back_of_can s hb]
  have hfw :
      ({ s with
          history_position := s.history_position - 1
          current_path := s.path_history.getD (s.history_position - 1) []
          signal_writes := s.signal_writes + 1 }
        : NavigationState).can_go_forward = true := by
    simp only [NavigationState.can_go_forward, decide_eq_true_eq]
    omega
  rw [go_forward_of_can _ hfw]
  have hpp : s.history_position - 1 + 1 = s.history_position := by omega
  refine ⟨?_, rfl, hpp⟩
  rw [get_current_path_of_lt _ (by simpa using hpp ▸ hpos),
    get_current_path_of_lt s hpos]
  simp [hpp]

/-- Witness for C6: C6 evaluated on the concrete state reached after
visiting `/home/user`, `docs`, `docs/a`. -/
theorem go_back_go_forward_spec_witness :
    Inv navDemo2 ∧
    ((navDemo2.can_go_back = true →
      NavigationState.get_current_path ((navDemo2.go_back).1.go_forward).1
        = NavigationState.get_current_path navDemo2 ∧
      ((navDemo2.go_back).1.go_forward).1.path_history
        = navDemo2.path_history ∧
      ((navDemo2.go_back).1.go_forward).1.history_position
        = navDemo2.history_position) ∧
    (navDemo2.can_go_back = false → navDemo2.go_back = (navDemo2, none)) ∧
    (navDemo2.can_go_forward = false →
      navDemo2.go_forward = (navDemo2, none)) ∧
    (navDemo2.can_go_back = true ↔ 0 < navDemo2.history_position) ∧
    (navDemo2.can_go_forward = true ↔
      navDemo2.history_position < navDemo2.path_history.length - 1)) :=
  ⟨⟨by decide, by decide, by decide⟩,
    go_back_go_forward_spec navDemo2 ⟨by decide, by decide, by decide⟩⟩

/-- C9: `navigate_to` with a path equal to the entry at the current position
is a complete no-op: the resulting state is equal to the input state, so the
stack, the position, and the current-path signal are unchanged and no
signal write occurs (the signal-write counter is unchanged). -/
theorem navigate_to_current_entry_noop (s : NavigationState) (path : FsPath)
    (hpos : s.history_position < s.path_history.length)
    (heq : s.path_history.getD s.history_position [] = path) :
    s.navigate_to path = s :=
  navigate_to_of_eq s path (by rw [get_current_path_of_lt s hpos, heq])

/-- Witness for C9: navigating to `/home/user/docs` from a state currently at
`/home/user/docs` changes nothing. -/
theorem navigate_to_current_entry_noop_witness :
    navDemo1.history_position < navDemo1.path_history.length ∧
    navDemo1.path_history.getD navDemo1.history_position []
      = ["home", "user", "docs"] ∧
    navDemo1.navigate_to ["home", "user", "docs"] = navDemo1 :=
  ⟨by decide, by decide,
    navigate_to_current_entry_noop navDemo1 ["home", "user", "docs"]
      (by decide) (by decide)⟩

/-- C7: `navigate_to` with a new path truncates all entries after the current
position before appending, discarding forward history (afterwards
`can_go_forward` is `false`); and concretely, starting at `/home/user`,
after `navigate_to(/home/user/docs)`, `navigate_to(/home/user/docs/a)`,
`go_back()` (returning `/home/user/docs`) and `navigate_to(/home/user/pics)`,
the entry `/home/user/docs/a` is gone and `can_go_forward()` is `false`. -/
theorem navigate_to_truncates_forward_history :
    (∀ (s : NavigationState) (path : FsPath),
      NavigationState.get_current_path s ≠ path →
      (s.navigate_to path).path_history
        = s.path_history.take (s.history_position + 1) ++ [path] ∧
      (s.navigate_to path).can_go_forward = false) ∧
    navDemoBackResult = some ["home", "user", "docs"] ∧
    navDemo4.path_history
      = [["home", "user"], ["home", "user", "docs"],
          ["home", "user", "pics"]] ∧
    ["home", "user", "docs", "a"] ∉ navDemo4.path_history ∧
    navDemo4.can_go_forward = false := by
  refine ⟨?_, by decide, by decide, by decide, by decide⟩
  intro s path hne
  rw [navigate_to_of_ne s path hne]
  refine ⟨rfl, ?_⟩
  simp [NavigationState.can_go_forward]

/-- Witness for C7: the universally quantified truncation clause evaluated on
the concrete back-state `navDemo3`. -/
theorem navigate_to_truncates_forward_history_witness :
    NavigationState.get_current_path navDemo3 ≠ ["home", "user", "pics"] ∧
    (navDemo3.navigate_to ["home", "user", "pics"]).path_history
      = navDemo3.path_history.take (navDemo3.history_position + 1)
          ++ [["home", "user", "pics"]] ∧
    (navDemo3.navigate_to ["home", "user", "pics"]).can_go_forward = false :=
  ⟨by decide,
    (navigate_to_truncates_forward_history.1 navDemo3 ["home", "user", "pics"]
      (by decide)).1,
    (navigate_to_truncates_forward_history.1 navDemo3 ["home", "user", "pics"]
      (by decide)).2⟩

/-! ### Claim theorems for the toolbar confirmation gate -/

/-- C4: a selection-response processed while the pending delete-request flag
is clear never produces a `Delete` request; when the pending-properties flag
is also clear the message is dropped outright, producing no request at
all — stray messages on the response channel are never interpreted as
confirmed deletes. -/
theorem stray_response_never_deletes (g : ToolbarGate) (paths : List FsPath)
    (hd : g.pending_delete_request = false) :
    (¬ ∃ ps, FileOperationRequest.Delete ps ∈ (processResponse g paths).2) ∧
    (g.pending_properties_request = false →
      (processResponse g paths).2 = []) := by
  obtain ⟨gp, gd⟩ := g
  cases hd
  constructor
  · rintro ⟨ps, hmem⟩
    unfold processResponse at hmem
    by_cases he : paths.isEmpty <;> cases gp <;> simp [he] at hmem
  · intro hp
    cases hp
    unfold processResponse
    by_cases he : paths.isEmpty <;> simp [he]

/-- Witness for C4: a stray non-empty message with both flags clear produces
nothing. -/
theorem stray_response_never_deletes_witness :
    (⟨false, false⟩ : ToolbarGate).pending_delete_request = false ∧
    ((¬ ∃ ps, FileOperationRequest.Delete ps
        ∈ (processResponse ⟨false, false⟩ [["etc"]]).2) ∧
      ((⟨false, false⟩ : ToolbarGate).pending_properties_request = false →
        (processResponse ⟨false, false⟩ [["etc"]]).2 = [])) :=
  ⟨rfl, stray_response_never_deletes ⟨false, false⟩ [["etc"]] rfl⟩

/-- Counterexample to C5 as stated: with the gate awaiting a selection
(`pending_delete_request = true`), an empty selection-response is dropped
with no request emitted, but the pending delete-request flag is NOT
cleared — the gate does not return to Idle — and a subsequent delete
trigger is absorbed by the reentrancy guard, sending no fresh selection
request. -/
theorem empty_response_keeps_flag_counterexample :
    (processResponse ⟨false, true⟩ []).2 = [] ∧
    (processResponse ⟨false, true⟩ []).1.pending_delete_request = true ∧
    (pressDelete (processResponse ⟨false, true⟩ []).1).2 = false := by
  decide

/-- C5 amended: an empty selection-response received while the pending
delete-request flag is set is discarded silently — no prompt, no `Delete`,
and the gate state entirely unchanged — but the flag is left set rather
than cleared, so a subsequent delete trigger does not start a fresh
request. -/
theorem empty_response_dropped_flag_kept (g : ToolbarGate)
    (hd : g.pending_delete_request = true) :
    processResponse g [] = (g, []) ∧
    (processResponse g []).1.pending_delete_request = true ∧
    pressDelete (processResponse g []).1
      = ((processResponse g []).1, false) := by
  have h1 : processResponse g [] = (g, []) := by
    unfold processResponse
    simp
  refine ⟨h1, by rw [h1]; exact hd, ?_⟩
  rw [h1]
  unfold pressDelete
  simp [hd]

/-- Witness for C5 (amended): the concrete awaiting-selection gate. -/
theorem empty_response_dropped_flag_kept_witness :
    (⟨false, true⟩ : ToolbarGate).pending_delete_request = true ∧
    (processResponse ⟨false, true⟩ [] = (⟨false, true⟩, []) ∧
      (processResponse ⟨false, true⟩ []).1.pending_delete_request = true ∧
      pressDelete (processResponse ⟨false, true⟩ []).1
        = ((processResponse ⟨false, true⟩ []).1, false)) :=
  ⟨rfl, empty_response_dropped_flag_kept ⟨false, true⟩ rfl⟩

/-- C10: the pending-properties flag is checked before the pending-delete
flag, so a non-empty response with both flags set is consumed as a
`Properties` request, clearing only the properties flag and leaving the
delete flag set for a later response; and any single response produces at
most one operation request. -/
theorem properties_checked_before_delete (g : ToolbarGate)
    (paths : List FsPath) (hne : paths ≠ []) :
    (g.pending_properties_request = true → g.pending_delete_request = true →
      processResponse g paths =
        ({ pending_properties_request := false
           pending_delete_request := true },
          [FileOperationRequest.Properties paths])) ∧
    (processResponse g paths).2.length ≤ 1 := by
  obtain ⟨gp, gd⟩ := g
  constructor
  · intro hp hd
    cases hp
    cases hd
    unfold processResponse
    simp [hne]
  · unfold processResponse
    by_cases he : paths.isEmpty <;> cases gp <;> cases gd <;> simp [he]

/-- Witness for C10: both flags set, a one-element response. -/
theorem properties_checked_before_delete_witness :
    (([["tmp", "a"]] : List (List String)) ≠ []) ∧
    (((⟨true, true⟩ : ToolbarGate).pending_properties_request = true →
      (⟨true, true⟩ : ToolbarGate).pending_delete_request = true →
      processResponse ⟨true, true⟩ [["tmp", "a"]] =
        ({ pending_properties_request := false
           pending_delete_request := true },
          [FileOperationRequest.Properties [["tmp", "a"]]])) ∧
    (processResponse ⟨true, true⟩ [["tmp", "a"]]).2.length ≤ 1) :=
  ⟨by decide,
    properties_checked_before_delete ⟨true, true⟩ [["tmp", "a"]] (by decide)⟩

/-! ### Claim theorem for the confirmed-delete execution loop -/

theorem deleteLoop_all_ok (del : FsPath → Except String Unit) :
    ∀ paths : List FsPath, (∀ p ∈ paths, del p = Except.ok ()) →
      deleteLoop del paths = { attempted := paths, firstError := none } := by
  intro paths
  induction paths with
  | nil => intro _; rfl
  | cons p ps ih =>
    intro h
    have hp := h p (by simp)
    have hrest := ih fun q hq => h q (by simp [hq])
    simp [deleteLoop, hp, hrest]

theorem deleteLoop_first_error (del : FsPath → Except String Unit)
    (post : List FsPath) (bad : FsPath) (e : String)
    (hbad : del bad = Except.error e) :
    ∀ pre : List FsPath, (∀ p ∈ pre, del p = Except.ok ()) →
      deleteLoop del (pre ++ bad :: post)
        = { attempted := pre ++ [bad], firstError := some e } := by
  intro pre
  induction pre with
  | nil => intro _; simp [deleteLoop, hbad]
  | cons p ps ih =>
    intro h
    have hp := h p (by simp)
    have hrest := ih fun q hq => h q (by simp [hq])
    simp [deleteLoop, hp, hrest]

/-- C2: processing a confirmed `Delete(paths)` request deletes the paths in
order and stops at the first failure: when every path of `pre` deletes
successfully and `bad` fails with error `e`, exactly `pre ++ [bad]` is
attempted (the paths of `post` are neither attempted nor counted) and the
status message carries the first error; when every deletion succeeds the
status message carries the aggregate count; and the view is refreshed in
every case. -/
theorem delete_pipeline_stops_at_first_failure
    (del : FsPath → Except String Unit) (pre post : List FsPath)
    (bad : FsPath) (e : String)
    (hpre : ∀ p ∈ pre, del p = Except.ok ())
    (hbad : del bad = Except.error e) :
    (runDelete del (pre ++ bad :: post)).attempted = pre ++ [bad] ∧
    (runDelete del (pre ++ bad :: post)).status = "Error: " ++ e ∧
    (∀ paths, (∀ p ∈ paths, del p = Except.ok ()) →
      (runDelete del paths).attempted = paths ∧
      (runDelete del paths).status
        = "Deleted " ++ toString paths.length ++ " item(s)") ∧
    (∀ paths, (runDelete del paths).refreshed = true) := by
  have hfail := deleteLoop_first_error del post bad e hbad pre hpre
  refine ⟨?_, ?_, ?_, fun paths => rfl⟩
  · simp [runDelete, hfail]
  · simp [runDelete, hfail]
  · intro paths hall
    simp [runDelete, deleteLoop_all_ok del paths hall]

/-- Witness for C2: the spec scenario `Delete(["/tmp/a", "/tmp/b"])` where
deleting `/tmp/a` fails. -/
theorem delete_pipeline_stops_at_first_failure_witness :
    demoDel ["tmp", "a"] = Except.error "Failed" ∧
    (runDelete demoDel [["tmp", "a"], ["tmp", "b"]]).attempted
      = [["tmp", "a"]] ∧
    (runDelete demoDel [["tmp", "a"], ["tmp", "b"]]).status
      = "Error: " ++ "Failed" ∧
    (runDelete demoDel [["tmp", "a"], ["tmp", "b"]]).refreshed = true := by
  have h := delete_pipeline_stops_at_first_failure demoDel []
    [["tmp", "b"]] ["tmp", "a"] "Failed" (by simp) rfl
  exact ⟨rfl, h.1, h.2.1, h.2.2.2 [["tmp", "a"], ["tmp", "b"]]⟩

/-! ### Claim theorem for vanished-directory recovery -/

theorem recoveryWalkAux_spec (ex : FsPath → Bool) :
    ∀ (fuel : Nat) (p : FsPath), p.length ≤ fuel →
      ∃ k, k ≤ p.length ∧ recoveryWalkAux ex fuel p = p.take k ∧
        (∀ j, k < j → j ≤ p.length → ex (p.take j) = false) := by
  intro fuel
  induction fuel with
  | zero =>
    intro p hp
    have hnil : p = [] := List.eq_nil_of_length_eq_zero (Nat.le_zero.mp hp)
    subst hnil
    exact ⟨0, Nat.le_refl _, rfl,
      fun j hj hj' => by simp at hj'; exact absurd hj (by omega)⟩
  | succ n ih =>
    intro p hp
    by_cases hex : ex p
    · refine ⟨p.length, Nat.le_refl _, ?_,
        fun j hj hj' => absurd (Nat.lt_of_lt_of_le hj hj') (Nat.lt_irrefl _)⟩
      simp [recoveryWalkAux, hex]
    · by_cases hnil : p = []
      · subst hnil
        refine ⟨0, Nat.le_refl _, ?_,
          fun j hj hj' => by simp at hj'; exact absurd hj (by omega)⟩
        simp [recoveryWalkAux, hex]
      · have hlen1 : 0 < p.length := List.length_pos.mpr hnil
        have hlen : p.dropLast.length ≤ n := by
          rw [List.length_dropLast]
          omega
        obtain ⟨k, hk, heq, hfail⟩ := ih p.dropLast hlen
        rw [List.length_dropLast] at hk
        have hstep : recoveryWalkAux ex (n + 1) p
            = recoveryWalkAux ex n p.dropLast := by
          simp [recoveryWalkAux, hex, hnil]
        have hdt : p.dropLast = p.take (p.length - 1) := List.dropLast_eq_take p
        refine ⟨k, by omega, ?_, ?_⟩
        · rw [hstep, heq, hdt, List.take_take]
          congr 1
          omega
        · intro j hj hjle
          by_cases hje : j = p.length
          · subst hje
            simpa [List.take_length] using hex
          · have hj' : j ≤ p.dropLast.length := by
              rw [List.length_dropLast]
              omega
            have := hfail j hj hj'
            rwa [hdt, List.take_take,
              show min j (p.length - 1) = j from by omega] at this

/-- C8: when the displayed path no longer exists and some ancestor does, the
recovery step walks `parent()` repeatedly (bounded by the root), re-points
the file-list view at the ancestor it finds, routes that ancestor through
`navigate_to` as a new navigation target, and sends no status message; the
target is the nearest existing ancestor: a proper prefix of the vanished
path all of whose longer proper prefixes do not exist. -/
theorem vanished_directory_recovery (ex : FsPath → Bool) (v : ViewState)
    (hvan : ex v.viewPath = false)
    (hfound : ex (recoveryWalk ex v.viewPath) = true) :
    (recoverVanished ex v).viewPath = recoveryWalk ex v.viewPath ∧
    (recoverVanished ex v).nav
      = v.nav.navigate_to (recoveryWalk ex v.viewPath) ∧
    (recoverVanished ex v).statusSent = v.statusSent ∧
    ∃ k, k < v.viewPath.length ∧
      recoveryWalk ex v.viewPath = v.viewPath.take k ∧
      (∀ j, k < j → j < v.viewPath.length →
        ex (v.viewPath.take j) = false) := by
  obtain ⟨k, hk, heq, hfail⟩ :=
    recoveryWalkAux_spec ex v.viewPath.length v.viewPath (Nat.le_refl _)
  have hrw : recoveryWalk ex v.viewPath = v.viewPath.take k := heq
  have hkne : k ≠ v.viewPath.length := by
    intro h
    rw [h, List.take_length] at hrw
    rw [hrw, hvan] at hfound
    simp at hfound
  have hne : recoveryWalk ex v.viewPath ≠ v.viewPath := by
    intro h
    rw [h, hvan] at hfound
    simp at hfound
  have hstep : recoverVanished ex v =
      { v with
          nav := v.nav.navigate_to (recoveryWalk ex v.viewPath)
          viewPath := recoveryWalk ex v.viewPath } := by
    unfold recoverVanished
    simp [hvan, hfound, hne]
  refine ⟨by rw [hstep], by rw [hstep], by rw [hstep], k, by omega, hrw,
    fun j hj hj' => hfail j hj (Nat.le_of_lt hj')⟩

/-- Witness for C8: the displayed directory `/home/user/docs/a` has vanished;
only `/`, `/home` and `/home/user` exist; the recovery navigates to
`/home/user`. -/
theorem vanished_directory_recovery_witness :
    demoEx demoView.viewPath = false ∧
    demoEx (recoveryWalk demoEx demoView.viewPath) = true ∧
    ((recoverVanished demoEx demoView).viewPath
        = recoveryWalk demoEx demoView.viewPath ∧
      (recoverVanished demoEx demoView).nav
        = demoView.nav.navigate_to (recoveryWalk demoEx demoView.viewPath) ∧
      (recoverVanished demoEx demoView).statusSent = demoView.statusSent ∧
      ∃ k, k < demoView.viewPath.length ∧
        recoveryWalk demoEx demoView.viewPath = demoView.viewPath.take k ∧
        (∀ j, k < j → j < demoView.viewPath.length →
          demoEx (demoView.viewPath.take j) = false)) :=
  ⟨by decide, by decide,
    vanished_directory_recovery demoEx demoView (by decide) (by decide)⟩

/-! ### Claim theorem for the whole toolbar-delete pipeline -/

theorem mem_deleteRequestSets (reqs : List FileOperationRequest)
    (ps : List FsPath) (h : FileOperationRequest.Delete ps ∈ reqs) :
    ps ∈ deleteRequestSets reqs := by
  unfold deleteRequestSets
  exact List.mem_filterMap.mpr ⟨FileOperationRequest.Delete ps, h, rfl⟩

theorem deleteRequestSets_mem (reqs : List FileOperationRequest)
    (ps : List FsPath) (h : ps ∈ deleteRequestSets reqs) :
    FileOperationRequest.Delete ps ∈ reqs := by
  unfold deleteRequestSets at h
  obtain ⟨r, hr, heq⟩ := List.mem_filterMap.mp h
  cases r with
  | Delete a =>
    simp only [Option.some.injEq] at heq
    subst heq
    exact hr
  | CreateDirectory a b => simp at heq
  | Rename a b => simp at heq
  | Properties a => simp at heq

theorem processResponse_delete_sets (g : ToolbarGate) (paths : List FsPath) :
    ∀ ps ∈ deleteRequestSets (processResponse g paths).2,
      ps = paths ∧ paths ≠ [] := by
  intro ps hmem
  obtain ⟨gp, gd⟩ := g
  unfold processResponse at hmem
  by_cases he : paths.isEmpty
  · simp [he, deleteRequestSets] at hmem
  · have hne : paths ≠ [] := by simpa using he
    cases gp with
    | true => cases gd <;> simp [he, deleteRequestSets] at hmem
    | false =>
      cases gd with
      | false => simp [he, deleteRequestSets] at hmem
      | true =>
        simp [he, deleteRequestSets] at hmem
        exact ⟨hmem, hne⟩

theorem mem_foldl_showDialog (l : List (List FsPath)) :
    ∀ (d : List (List FsPath)) (ps : List FsPath),
      ps ∈ l.foldl showDialog d → ps ∈ d ∨ ps ∈ l := by
  induction l with
  | nil => intro d ps h; exact Or.inl h
  | cons a l ih =>
    intro d ps h
    rcases ih (showDialog d a) ps h with hd | hl
    · unfold showDialog at hd
      by_cases ha : a.isEmpty
      · rw [if_pos ha] at hd
        exact Or.inl hd
      · rw [if_neg ha] at hd
        rcases List.mem_append.mp hd with h1 | h2
        · exact Or.inl h1
        · simp only [List.mem_singleton] at h2
          subst h2
          exact Or.inr (by simp)
    · exact Or.inr (by simp [hl])

theorem sysInv_init : SysInv initState := by
  refine ⟨?_, ?_, ?_, ?_, ?_, ?_⟩
  all_goals intros
  all_goals simp_all [initState]

theorem sysInv_step (s : SysState) (e : Ev) (h : SysInv s) :
    SysInv (step s e) := by
  obtain ⟨h1, h2, h3, h4, h5, h6⟩ := h
  cases e with
  | pressDelete => exact ⟨h1, h2, h3, h4, h5, h6⟩
  | response paths =>
    refine ⟨?_, ?_, ?_, ?_, ?_, ?_⟩
    · intro ps hmem
      rcases List.mem_append.mp hmem with hold | hnew
      · exact List.mem_append_left _ (h1 ps hold)
      · exact List.mem_append_right _ (mem_deleteRequestSets _ ps hnew)
    · exact fun ps hm => List.mem_append_left _ (h2 ps hm)
    · exact fun ps hp =>
        ⟨(h3 ps hp).1, List.mem_append_left _ (h3 ps hp).2⟩
    · exact fun ps hm =>
        ⟨(h4 ps hm).1, List.mem_append_left _ (h4 ps hm).2⟩
    · intro ps hm
      rcases List.mem_append.mp hm with hold | hnew
      · exact h5 ps hold
      · rcases processResponse_delete_sets s.gate paths ps hnew with ⟨hps, hne⟩
        rw [hps]
        exact hne
    · exact fun ps hm => List.mem_append_left _ (h6 ps hm)
  | confirm paths =>
    by_cases hd : paths ∈ s.dialogs
    · simp only [step, if_pos hd]
      refine ⟨h1, h2, ?_, ?_, h5, ?_⟩
      · intro ps hp
        simp only [Option.some.injEq] at hp
        subst hp
        exact ⟨List.mem_append_right _ (by simp), h2 _ hd⟩
      · exact fun ps hm =>
          ⟨List.mem_append_left _ (h4 ps hm).1, (h4 ps hm).2⟩
      · intro ps hm
        rcases List.mem_append.mp hm with hold | hnew
        · exact h6 ps hold
        · simp only [List.mem_singleton] at hnew
          subst hnew
          exact h2 ps hd
    · simp only [step, if_neg hd]
      exact ⟨h1, h2, h3, h4, h5, h6⟩
  | cancel paths => exact ⟨h1, h2, h3, h4, h5, h6⟩
  | drainOps =>
    refine ⟨?_, ?_, h3, h4, h5, h6⟩
    · intro ps hmem
      exact absurd hmem (List.not_mem_nil _)
    · intro ps hm
      rcases mem_foldl_showDialog _ _ ps hm with hold | hnew
      · exact h2 ps hold
      · exact h1 ps (deleteRequestSets_mem _ ps hnew)
  | pipelineTick =>
    simp only [step]
    split
    next paths heq =>
      refine ⟨h1, h2, ?_, ?_, h5, h6⟩
      · intro ps hp
        simp at hp
      · intro ps hm
        rcases List.mem_append.mp hm with hold | hnew
        · exact h4 ps hold
        · simp only [List.mem_singleton] at hnew
          subst hnew
          exact h3 ps heq
    next => exact ⟨h1, h2, h3, h4, h5, h6⟩

theorem sysInv_runSys (es : List Ev) : SysInv (runSys es) := by
  have key : ∀ (l : List Ev) (s : SysState), SysInv s →
      SysInv (l.foldl step s) := by
    intro l
    induction l with
    | nil => exact fun s h => h
    | cons e l ih => exact fun s h => ih (step s e) (sysInv_step s e h)
  exact key es initState sysInv_init

theorem step_confirmedSets_frame (s : SysState) (e : Ev)
    (h : ∀ ps, e ≠ Ev.confirm ps) :
    (step s e).confirmedSets = s.confirmedSets := by
  cases e with
  | confirm ps => exact absurd rfl (h ps)
  | pressDelete => rfl
  | response paths => rfl
  | cancel paths => rfl
  | drainOps => rfl
  | pipelineTick => simp only [step]; split <;> rfl

theorem step_respondedDelete_frame (s : SysState) (e : Ev)
    (h : ∀ ps, e = Ev.response ps → ps = []) :
    (step s e).respondedDelete = s.respondedDelete := by
  cases e with
  | response paths =>
    have hnil : paths = [] := h paths rfl
    subst hnil
    simp [step, processResponse, deleteRequestSets]
  | confirm ps => simp only [step]; split <;> rfl
  | pressDelete => rfl
  | cancel paths => rfl
  | drainOps => rfl
  | pipelineTick => simp only [step]; split <;> rfl

theorem runSys_confirmedSets_nil (es : List Ev)
    (h : ∀ e ∈ es, ∀ ps, e ≠ Ev.confirm ps) :
    (runSys es).confirmedSets = [] := by
  have key : ∀ (l : List Ev) (s : SysState),
      (∀ e ∈ l, ∀ ps, e ≠ Ev.confirm ps) →
      (l.foldl step s).confirmedSets = s.confirmedSets := by
    intro l
    induction l with
    | nil => intro s _; rfl
    | cons e l ih =>
      intro s hl
      rw [List.foldl_cons,
        ih (step s e) fun e' he' => hl e' (by simp [he']),
        step_confirmedSets_frame s e (hl e (by simp))]
  exact key es initState h

theorem runSys_respondedDelete_nil (es : List Ev)
    (h : ∀ e ∈ es, ∀ ps, e = Ev.response ps → ps = []) :
    (runSys es).respondedDelete = [] := by
  have key : ∀ (l : List Ev) (s : SysState),
      (∀ e ∈ l, ∀ ps, e = Ev.response ps → ps = []) →
      (l.foldl step s).respondedDelete = s.respondedDelete := by
    intro l
    induction l with
    | nil => intro s _; rfl
    | cons e l ih =>
      intro s hl
      rw [List.foldl_cons,
        ih (step s e) fun e' he' => hl e' (by simp [he']),
        step_respondedDelete_frame s e (hl e (by simp))]
  exact key es initState h

/-- C1: in every run of the toolbar-delete pipeline, every operand set handed
to the filesystem delete loop is non-empty, was emitted by the gate for a
selection-response matched to a pending delete request (recorded in
`respondedDelete`), and was explicitly confirmed through a dialog's confirm
action into the pending-confirmation holder (recorded in `confirmedSets`);
a run containing no confirm action — cancels included — performs zero
filesystem deletions, and so does a run whose selection-responses are all
empty. -/
theorem delete_needs_selection_and_confirmation (es : List Ev) :
    (∀ ps ∈ (runSys es).executedSets,
      ps ≠ [] ∧ ps ∈ (runSys es).respondedDelete ∧
        ps ∈ (runSys es).confirmedSets) ∧
    ((∀ e ∈ es, ∀ ps, e ≠ Ev.confirm ps) → (runSys es).executedSets = []) ∧
    ((∀ e ∈ es, ∀ ps, e = Ev.response ps → ps = []) →
      (runSys es).executedSets = []) := by
  obtain ⟨h1, h2, h3, h4, h5, h6⟩ := sysInv_runSys es
  refine ⟨?_, ?_, ?_⟩
  · intro ps hm
    exact ⟨h5 ps (h4 ps hm).2, (h4 ps hm).2, (h4 ps hm).1⟩
  · intro hc
    have hcs := runSys_confirmedSets_nil es hc
    refine List.eq_nil_iff_forall_not_mem.mpr fun ps hm => ?_
    have := (h4 ps hm).1
    rw [hcs] at this
    simp at this
  · intro hr
    have hrd := runSys_respondedDelete_nil es hr
    refine List.eq_nil_iff_forall_not_mem.mpr fun ps hm => ?_
    have := (h4 ps hm).2
    rw [hrd] at this
    simp at this

/-- Witness for C1: in the demonstration trace, the one executed operand set
`[/tmp/a]` is non-empty, was a gate-matched selection response, and was
confirmed. -/
theorem delete_needs_selection_and_confirmation_witness :
    [["tmp", "a"]] ∈ (runSys demoTrace).executedSets ∧
    (([["tmp", "a"]] : List FsPath) ≠ [] ∧
      [["tmp", "a"]] ∈ (runSys demoTrace).respondedDelete ∧
      [["tmp", "a"]] ∈ (runSys demoTrace).confirmedSets) :=
  ⟨by decide,
    (delete_needs_selection_and_confirmation demoTrace).1
      [["tmp", "a"]] (by decide)⟩

end Fileman
